import Mathlib

/-!
Shallow embedding of `NativeFlowStats` from
`midolman/src/nativeMetering/headers/nativeFlowStats.h`.

The class holds two signed 64-bit counters (`packets`, `bytes`).  Machine
`int64_t` values are embedded as `Int` restricted to the range
`[-2^63, 2^63)`; arithmetic that may overflow is wrapped with `wrap64`,
which reduces an integer into that range with two's-complement (mod 2^64)
semantics.
-/

/-- The value range of a signed 64-bit machine integer. -/
def Int64.isValid (x : Int) : Prop := -(2 ^ 63) ≤ x ∧ x < 2 ^ 63

instance (x : Int) : Decidable (Int64.isValid x) := instDecidableAnd

/-- Two's-complement reduction of an integer into the signed 64-bit range. -/
def wrap64 (x : Int) : Int := (x + 2 ^ 63) % 2 ^ 64 - 2 ^ 63

/-- The flow counter pair: number of matched packets and matched bytes,
both signed 64-bit (signed because of the Java interop boundary). -/
structure NativeFlowStats where
  packets : Int
  bytes : Int
deriving DecidableEq

namespace NativeFlowStats

/-- `NativeFlowStats(): packets(0), bytes(0) {}` -/
def mk0 : NativeFlowStats := ⟨0, 0⟩

/-- `NativeFlowStats(int64_t p, int64_t b): packets(p), bytes(b) {}` -/
def mkPB (p b : Int) : NativeFlowStats := ⟨p, b⟩

/-- `NativeFlowStats(const NativeFlowStats& fs): packets(fs.packets), bytes(fs.bytes) {}` -/
def copy (fs : NativeFlowStats) : NativeFlowStats := ⟨fs.packets, fs.bytes⟩

/-- `int64_t get_packets() const {return packets;}` -/
def get_packets (s : NativeFlowStats) : Int := s.packets

/-- `int64_t get_bytes() const {return bytes;}` -/
def get_bytes (s : NativeFlowStats) : Int := s.bytes

/-- `void reset() {packets = bytes = 0;}` -/
def reset (_ : NativeFlowStats) : NativeFlowStats := ⟨0, 0⟩

/-- Modelled from the spec: the body of `void add(int64_t p, int64_t b)` is
declared in the header but defined in a translation unit not present in the
sources.  Per the spec it "adds given deltas to both fields in place.  No
overflow check; standard two's-complement wraparound semantics apply on
overflow". -/
def add (s : NativeFlowStats) (p b : Int) : NativeFlowStats :=
  ⟨wrap64 (s.packets + p), wrap64 (s.bytes + b)⟩

/-- `void add(const NativeFlowStats& delta) { add(delta.packets, delta.bytes); }` -/
def addFS (s delta : NativeFlowStats) : NativeFlowStats :=
  s.add delta.packets delta.bytes

/-- Modelled from the spec: the body of `void subtract(int64_t p, int64_t b)`
is declared in the header but defined in a translation unit not present in
the sources.  Per the spec it "subtracts given deltas from both fields in
place; may drive a field negative; no validation or clamping performed at
call time". -/
def subtract (s : NativeFlowStats) (p b : Int) : NativeFlowStats :=
  ⟨wrap64 (s.packets - p), wrap64 (s.bytes - b)⟩

/-- `void subtract(const NativeFlowStats& stats) { subtract(stats.packets, stats.bytes); }`
The `int64_t` arguments are passed by value, so both fields of `stats` are
read before any mutation of the receiver happens. -/
def subtractFS (s stats : NativeFlowStats) : NativeFlowStats :=
  s.subtract stats.packets stats.bytes

/-- `bool underflow() const {return packets < 0 || bytes < 0;}` -/
def underflow (s : NativeFlowStats) : Bool := s.packets < 0 || s.bytes < 0

/-- Modelled from the spec: the body of
`NativeFlowStats& operator=(const NativeFlowStats& fs)` is declared in the
header but defined in a translation unit not present in the sources.  Per
the spec, copy assignment is a "field-wise copy" producing "a value-identical
independent instance". -/
def assign (_ fs : NativeFlowStats) : NativeFlowStats := ⟨fs.packets, fs.bytes⟩

/-- A state whose two fields are representable as signed 64-bit machine
integers; every state reachable in the C++ program satisfies this. -/
def valid (s : NativeFlowStats) : Prop :=
  Int64.isValid s.packets ∧ Int64.isValid s.bytes

instance (s : NativeFlowStats) : Decidable (s.valid) := instDecidableAnd

end NativeFlowStats

/-! Arithmetic facts about `wrap64`. -/

lemma wrap64_emod (x : Int) : wrap64 x % 2 ^ 64 = x % 2 ^ 64 := by
  unfold wrap64
  omega

lemma wrap64_isValid (x : Int) : Int64.isValid (wrap64 x) := by
  unfold wrap64 Int64.isValid
  omega

lemma wrap64_eq_self {x : Int} (h : Int64.isValid x) : wrap64 x = x := by
  unfold wrap64
  unfold Int64.isValid at h
  omega

lemma wrap64_congr {x y : Int} (h : x % 2 ^ 64 = y % 2 ^ 64) :
    wrap64 x = wrap64 y := by
  unfold wrap64
  omega

lemma wrap64_add_left (x y : Int) : wrap64 (wrap64 x + y) = wrap64 (x + y) := by
  have h := wrap64_emod x
  exact wrap64_congr (by omega)

lemma wrap64_sub_right (x y : Int) : wrap64 (wrap64 x - y) = wrap64 (x - y) := by
  have h := wrap64_emod x
  exact wrap64_congr (by omega)

/-! Claims. -/

/-- C1: for every pair of signed 64-bit integers `p` and `b`, constructing a
`NativeFlowStats` with the two-argument constructor yields an object on which
`get_packets` returns `p` and `get_bytes` returns `b`; no validation is
performed, so negative inputs are accepted silently. -/
theorem C1_construct_get (p b : Int)
    (hp : Int64.isValid p) (hb : Int64.isValid b) :
    (NativeFlowStats.mkPB p b).get_packets = p ∧
    (NativeFlowStats.mkPB p b).get_bytes = b :=
  ⟨rfl, rfl⟩

/-- Witness for C1 at the (silently accepted) negative inputs `p = -5`,
`b = -7`. -/
theorem C1_construct_get_witness :
    Int64.isValid (-5) ∧ Int64.isValid (-7) ∧
    (NativeFlowStats.mkPB (-5) (-7)).get_packets = -5 ∧
    (NativeFlowStats.mkPB (-5) (-7)).get_bytes = -7 := by
  refine ⟨by decide, by decide, ?_⟩
  exact C1_construct_get (-5) (-7) (by decide) (by decide)

/-- C2: two successive `add` calls produce the same final state as one
combined `add`, provided no overflow occurs (all intermediate sums stay in
the signed 64-bit range). -/
theorem C2_add_additive (s : NativeFlowStats) (p1 b1 p2 b2 : Int)
    (hs : s.valid)
    (hp1 : Int64.isValid (s.packets + p1))
    (hb1 : Int64.isValid (s.bytes + b1))
    (hp12 : Int64.isValid (s.packets + p1 + p2))
    (hb12 : Int64.isValid (s.bytes + b1 + b2))
    (hps : Int64.isValid (p1 + p2))
    (hbs : Int64.isValid (b1 + b2)) :
    (s.add p1 b1).add p2 b2 = s.add (p1 + p2) (b1 + b2) := by
  unfold NativeFlowStats.add
  have h1 := wrap64_add_left (s.packets + p1) p2
  have h2 := wrap64_add_left (s.bytes + b1) b2
  simp only [h1, h2]
  congr 1 <;> exact wrap64_congr (by omega)

/-- Witness for C2: a concrete state and concrete deltas with no overflow. -/
theorem C2_add_additive_witness :
    ((NativeFlowStats.mkPB 1 2).add 3 4).add 5 6 =
      (NativeFlowStats.mkPB 1 2).add (3 + 5) (4 + 6) :=
  C2_add_additive (NativeFlowStats.mkPB 1 2) 3 4 5 6
    (by decide) (by decide) (by decide) (by decide) (by decide)
    (by decide) (by decide)

/-- C3: for every 64-bit-representable state and every pair of signed 64-bit
integers `p` and `b`, `add p b` followed by `subtract p b` restores the state
exactly. -/
theorem C3_add_subtract_inverse (s : NativeFlowStats) (p b : Int)
    (hs : s.valid) :
    (s.add p b).subtract p b = s := by
  unfold NativeFlowStats.add NativeFlowStats.subtract
  have h1 := wrap64_sub_right (s.packets + p) p
  have h2 := wrap64_sub_right (s.bytes + b) b
  simp only [h1, h2, add_sub_cancel_right]
  obtain ⟨hp, hb⟩ := hs
  cases s
  simp only [NativeFlowStats.mk.injEq]
  exact ⟨wrap64_eq_self hp, wrap64_eq_self hb⟩

/-- Witness for C3 at state `(3, 4)` with deltas `(5, 6)`. -/
theorem C3_add_subtract_inverse_witness :
    ((NativeFlowStats.mkPB 3 4).add 5 6).subtract 5 6 =
      NativeFlowStats.mkPB 3 4 :=
  C3_add_subtract_inverse (NativeFlowStats.mkPB 3 4) 5 6 (by decide)

/-- C4: starting from the state `(0, 0)`, `subtract 1 0` leaves the object
with `underflow` returning `true`; likewise `subtract 0 1`.  Subtraction
only mutates the counters; the negative state is observed after the fact. -/
theorem C4_subtract_underflow :
    (NativeFlowStats.mk0.subtract 1 0).underflow = true ∧
    (NativeFlowStats.mk0.subtract 0 1).underflow = true := by
  decide

/-- C5: for every state, `reset` sets both fields to zero: afterwards
`get_packets` returns `0` and `get_bytes` returns `0`. -/
theorem C5_reset_zero (s : NativeFlowStats) :
    s.reset.get_packets = 0 ∧ s.reset.get_bytes = 0 :=
  ⟨rfl, rfl⟩

/-- A two-object store holding the original object in the first slot and its
copy in the second; mutating the first slot models an in-place mutation of
the original after the copy was taken. -/
def mutateFst (m : NativeFlowStats → NativeFlowStats)
    (st : NativeFlowStats × NativeFlowStats) :
    NativeFlowStats × NativeFlowStats :=
  (m st.1, st.2)

/-- C6: after copying `a` into a second object (by copy construction or by
assignment), the copy is value-identical, and any subsequent mutation `m` of
`a` (this covers `reset`, `add`, and `subtract`) leaves the copy's observed
values — `get_packets`, `get_bytes`, `underflow` — unchanged. -/
theorem C6_copy_independent (a c : NativeFlowStats)
    (m : NativeFlowStats → NativeFlowStats) :
    ((mutateFst m (a, a.copy)).2.get_packets = a.get_packets ∧
     (mutateFst m (a, a.copy)).2.get_bytes = a.get_bytes ∧
     (mutateFst m (a, a.copy)).2.underflow = a.underflow) ∧
    ((mutateFst m (a, c.assign a)).2.get_packets = a.get_packets ∧
     (mutateFst m (a, c.assign a)).2.get_bytes = a.get_bytes ∧
     (mutateFst m (a, c.assign a)).2.underflow = a.underflow) :=
  ⟨⟨rfl, rfl, rfl⟩, ⟨rfl, rfl, rfl⟩⟩

/-- C7: the zero-argument constructor yields an object with both counters
zero, on which `underflow` returns `false`. -/
theorem C7_default_no_underflow :
    NativeFlowStats.mk0.get_packets = 0 ∧
    NativeFlowStats.mk0.get_bytes = 0 ∧
    NativeFlowStats.mk0.underflow = false := by
  decide

/-- C8: `add p b` adds `p` to the packets field and `b` to the bytes field
with two's-complement (mod `2^64`) semantics: each resulting field is
congruent to the exact sum modulo `2^64` and lies in the signed 64-bit
range, so overflow wraps silently; at the boundary, adding `1` to
`2^63 - 1` packets yields `-2^63`. -/
theorem C8_add_wraparound (s : NativeFlowStats) (p b : Int) :
    ((s.add p b).get_packets - (s.get_packets + p)) % 2 ^ 64 = 0 ∧
    Int64.isValid ((s.add p b).get_packets) ∧
    ((s.add p b).get_bytes - (s.get_bytes + b)) % 2 ^ 64 = 0 ∧
    Int64.isValid ((s.add p b).get_bytes) ∧
    ((NativeFlowStats.mkPB (2 ^ 63 - 1) 0).add 1 0).get_packets = -(2 ^ 63) := by
  simp only [NativeFlowStats.add, NativeFlowStats.get_packets,
    NativeFlowStats.get_bytes]
  refine ⟨?_, wrap64_isValid _, ?_, wrap64_isValid _, by decide⟩
  · have h := wrap64_emod (s.packets + p)
    omega
  · have h := wrap64_emod (s.bytes + b)
    omega

/-- C9: a negative state is reachable without any subtraction: for signed
64-bit `p`, `b` with `p < 0` or `b < 0`, the freshly constructed object
already has `underflow` returning `true`. -/
theorem C9_negative_construct (p b : Int)
    (hp : Int64.isValid p) (hb : Int64.isValid b) (hneg : p < 0 ∨ b < 0) :
    (NativeFlowStats.mkPB p b).underflow = true := by
  unfold NativeFlowStats.mkPB NativeFlowStats.underflow
  rcases hneg with h | h <;> simp [h]

/-- Witness for C9 at `p = -1`, `b = 0`. -/
theorem C9_negative_construct_witness :
    (NativeFlowStats.mkPB (-1) 0).underflow = true :=
  C9_negative_construct (-1) 0 (by decide) (by decide) (Or.inl (by decide))

/-- C10: self-aliasing subtraction is safe: for every state `s`, the
instance overload `subtract(const NativeFlowStats&)` applied to the object
itself leaves the state `(0, 0)`, with `get_packets` and `get_bytes`
returning `0` and `underflow` returning `false`. -/
theorem C10_self_subtract (s : NativeFlowStats) :
    s.subtractFS s = NativeFlowStats.mk0 ∧
    (s.subtractFS s).get_packets = 0 ∧
    (s.subtractFS s).get_bytes = 0 ∧
    (s.subtractFS s).underflow = false := by
  have h0 : wrap64 0 = 0 := by decide
  unfold NativeFlowStats.subtractFS NativeFlowStats.subtract
  simp only [sub_self, h0]
  exact ⟨rfl, rfl, rfl, rfl⟩
